import Mathlib

/-!
Verification of the pretty-printing Ion text writer
(source: src/src/IonPrettyTextWriter.ts, class PrettyTextWriter).

The writer is embedded shallowly: the writer object becomes a `PWriter`
structure holding the container stack, the indentation counter, the two
configuration fields and the bytes emitted so far; each method of the
source class becomes a function from `PWriter` to `PWriter` (paired with
an optional error for the methods that can throw).  Errors thrown in
JavaScript are modelled by returning the error together with the state
at the moment of the throw, so mutations performed before a throw stay
visible, exactly as they do on the JavaScript object.

External collaborators (the base `TextWriter`, which is not part of the
source tree) are modelled from the spec where the pretty writer depends
on them: the container frame type and its constructor, the stack, the
depth accessor, and `_stepIn`.  Raw payload serialization
(`writeSymbolToken`, `_writeNull`, the `serialize` callback) is
delegated in the source; here each such call site takes the bytes the
delegated serializer would produce as a parameter.  Pending annotations
are modelled as absent (the annotation serializer then emits nothing),
since the pretty writer never populates them itself.
-/

namespace PrettyIon

/-- Container types the pretty writer distinguishes (IonTypes.LIST,
IonTypes.SEXP, IonTypes.STRUCT); the top level carries no container
type, modelled below with `Option CType`. -/
inductive CType : Type
  | list
  | sexp
  | struct
deriving DecidableEq, Repr

/-- Modelled from the spec: the per-frame state of the base writer
(State.VALUE / State.STRUCT_FIELD in the source). -/
inductive WState : Type
  | value
  | structField
deriving DecidableEq, Repr

/-- Modelled from the spec: a container frame of the base writer
(`Context` in the source): container type (none at top level), the
struct field/value state, and the clean flag. -/
structure Context : Type where
  containerType : Option CType
  state : WState
  clean : Bool
deriving DecidableEq, Repr

/-- Modelled from the spec: frame construction on container entry -
state is EXPECT_STRUCT_FIELD for a STRUCT and EXPECT_VALUE otherwise,
and the frame starts clean. -/
def Context.new (t : Option CType) : Context :=
  { containerType := t
    state := if t = some CType.struct then WState.structField else WState.value
    clean := true }

/-- ASCII byte constants (CharCodes in the source). -/
def lineFeed : Nat := 10

def space : Nat := 32

def comma : Nat := 44

def colon : Nat := 58

def leftBracket : Nat := 91

def rightBracket : Nat := 93

def leftParenthesis : Nat := 40

def rightParenthesis : Nat := 41

def leftBrace : Nat := 123

def rightBrace : Nat := 125

/-- The pretty writer state: the container stack (head = innermost,
the bottom frame is the top-level sentinel pushed at construction),
the indentation counter, the two configuration fields, and the bytes
emitted so far.  `prettify_depth` is `none` for the default Infinity
and `some d` for a finite threshold. -/
structure PWriter : Type where
  containerContext : List Context
  indentCount : Int
  indentSize : Nat
  prettify_depth : Option Nat
  out : List Nat
deriving DecidableEq, Repr

/-- Modelled from the spec: writer construction - the stack holds one
top-level sentinel frame and the indent counter starts at zero. -/
def PWriter.init (indentSize : Nat) (pd : Option Nat) : PWriter :=
  { containerContext := [Context.new none]
    indentCount := 0
    indentSize := indentSize
    prettify_depth := pd
    out := [] }

/-- Modelled from the spec: current nesting depth, zero at top level
(stack length minus one). -/
def PWriter.depth (w : PWriter) : Nat :=
  w.containerContext.length - 1

/-- Modelled from the spec: the top frame of the container stack.  On
an empty stack (reachable only after a failed stepOut, after which the
writer must not be reused) a fresh top-level frame stands in for the
undefined JavaScript access. -/
def PWriter.currentContainer (w : PWriter) : Context :=
  w.containerContext.headD (Context.new none)

/-- Append bytes to the output (writeable.writeByte in the source). -/
def PWriter.emit (w : PWriter) (bs : List Nat) : PWriter :=
  { w with out := w.out ++ bs }

/-- Mutate the clean flag of the current container frame. -/
def PWriter.setClean (w : PWriter) (b : Bool) : PWriter :=
  { w with containerContext :=
      match w.containerContext with
      | [] => []
      | c :: rest => { c with clean := b } :: rest }

/-- Mutate the state of the current container frame. -/
def PWriter.setState (w : PWriter) (s : WState) : PWriter :=
  { w with containerContext :=
      match w.containerContext with
      | [] => []
      | c :: rest => { c with state := s } :: rest }

/-- Add to the indentation counter. -/
def PWriter.addIndent (w : PWriter) (i : Int) : PWriter :=
  { w with indentCount := w.indentCount + i }

/-- The comparison `depth < prettify_depth` of the source, with `none`
standing for Infinity. -/
def ltDepth : Nat → Option Nat → Bool
  | _, none => true
  | n, some d => n < d

/-- The comparison `depth < prettify_depth - 1` of the source, with
`none` standing for Infinity; over the naturals this is
`depth + 1 < d`, which agrees with the JavaScript real-number
comparison for every natural threshold, including zero. -/
def ltDepthPred : Nat → Option Nat → Bool
  | _, none => true
  | n, some d => n + 1 < d

/-- Source writePrettyNewLine: apply the increment to the counter,
then emit a line feed when the indent size is positive and the depth
is within the threshold. -/
def writePrettyNewLine (inc : Int) (w : PWriter) : PWriter :=
  let w := w.addIndent inc
  if 0 < w.indentSize ∧ ltDepth w.depth w.prettify_depth = true then
    w.emit [lineFeed]
  else w

/-- Source writePrettyIndent: apply the increment to the counter, then
emit `indentCount * indentSize` spaces when the indent size is positive
and the depth is within the threshold (the loop runs zero times for a
nonpositive product). -/
def writePrettyIndent (inc : Int) (w : PWriter) : PWriter :=
  let w := w.addIndent inc
  if 0 < w.indentSize ∧ ltDepth w.depth w.prettify_depth = true then
    w.emit (List.replicate (w.indentCount * (w.indentSize : Int)).toNat space)
  else w

/-- Source handleSeparator: decide the bytes preceding an element.  At
depth zero a clean frame is flipped and nothing is emitted, otherwise a
bare line feed separates top-level values.  Inside a container a clean
frame is flipped, otherwise a comma (list) or space (sexp) is emitted,
followed by a threshold-guarded newline; a struct emits nothing here. -/
def handleSeparator (w : PWriter) : PWriter :=
  if w.depth = 0 then
    if w.currentContainer.clean then w.setClean false
    else w.emit [lineFeed]
  else
    if w.currentContainer.clean then w.setClean false
    else
      match w.currentContainer.containerType with
      | some CType.list =>
          let w := w.emit [comma]
          if ltDepth w.depth w.prettify_depth = true then writePrettyNewLine 0 w
          else w
      | some CType.sexp =>
          let w := w.emit [space]
          if ltDepth w.depth w.prettify_depth = true then writePrettyNewLine 0 w
          else w
      | _ => w

/-- Source writePrettyValue: indent a value inside a non-struct
container (depth positive, container type present and not STRUCT). -/
def writePrettyValue (w : PWriter) : PWriter :=
  if 0 < w.depth ∧ w.currentContainer.containerType.isSome = true ∧
      w.currentContainer.containerType ≠ some CType.struct then
    writePrettyIndent 0 w
  else w

/-- Errors the writer can throw; all but the last are the structural
errors of the spec, the last is the internal error of the dead default
branch in stepOut. -/
inductive WError : Type
  | fieldNameOutsideStruct
  | expectingStructValue
  | notInContainer
  | expectingStructField
  | unexpectedContainerType
deriving DecidableEq, Repr

/-- The structural errors of the spec taxonomy. -/
def WError.isStructural : WError → Bool
  | .unexpectedContainerType => false
  | _ => true

/-- Source writeFieldName: reject outside a STRUCT or when a value is
expected; otherwise emit comma plus guarded newline for a non-clean
frame, then indentation, the symbol token bytes (delegated), a colon
and a space, and transition the frame state to VALUE. -/
def writeFieldName (fieldName : List Nat) (w : PWriter) :
    Option WError × PWriter :=
  if w.currentContainer.containerType ≠ some CType.struct then
    (some WError.fieldNameOutsideStruct, w)
  else if w.currentContainer.state ≠ WState.structField then
    (some WError.expectingStructValue, w)
  else
    let w := if w.currentContainer.clean = false then
               writePrettyNewLine 0 (w.emit [comma])
             else w
    let w := writePrettyIndent 0 w
    let w := w.emit fieldName
    let w := w.emit [colon, space]
    (none, w.setState WState.value)

/-- Source writeNull: separator, pretty-value indentation, annotations
(none pending), the delegated null payload bytes, then flip a STRUCT
frame back to EXPECT_STRUCT_FIELD.  The source performs no
EXPECT_STRUCT_FIELD check here. -/
def writeNull (payload : List Nat) (w : PWriter) : Option WError × PWriter :=
  let w := handleSeparator w
  let w := writePrettyValue w
  let w := w.emit payload
  let w := if w.currentContainer.containerType = some CType.struct then
             w.setState WState.structField
           else w
  (none, w)

/-- Source `_serializeValue`: reject when the frame expects a struct
field; redirect a null value to writeNull; otherwise separator,
pretty-value indentation, annotations (none pending), the delegated
payload bytes, then flip a STRUCT frame back to EXPECT_STRUCT_FIELD. -/
def serializeValue (valueIsNull : Bool) (payload : List Nat) (w : PWriter) :
    Option WError × PWriter :=
  if w.currentContainer.state = WState.structField then
    (some WError.expectingStructField, w)
  else if valueIsNull then writeNull payload w
  else
    let w := handleSeparator w
    let w := writePrettyValue w
    let w := w.emit payload
    let w := if w.currentContainer.containerType = some CType.struct then
               w.setState WState.structField
             else w
    (none, w)

/-- Modelled from the spec: `_stepIn` of the base writer pushes a fresh
frame for the entered container. -/
def stepInPush (t : CType) (w : PWriter) : PWriter :=
  { w with containerContext := Context.new (some t) :: w.containerContext }

/-- Source writeContainer, after its initial state flip: run the value
preamble (separator, pretty-value indentation, annotations - none
pending), emit the opening delimiter, emit a threshold-guarded newline
with counter increment when the new depth stays within the threshold,
and push the frame. -/
def writeContainerBody (t : CType) (openingCharacter : Nat) (w : PWriter) :
    PWriter :=
  let w := handleSeparator w
  let w := writePrettyValue w
  let w := w.emit [openingCharacter]
  let w := if ltDepthPred w.depth w.prettify_depth = true then
             writePrettyNewLine 1 w
           else w
  stepInPush t w

/-- Source writeContainer: preemptively flip a STRUCT frame awaiting a
value back to EXPECT_STRUCT_FIELD, then run the body above.  The
source performs no EXPECT_STRUCT_FIELD check here. -/
def writeContainer (t : CType) (openingCharacter : Nat) (w : PWriter) :
    PWriter :=
  let w := if w.currentContainer.containerType = some CType.struct ∧
              w.currentContainer.state = WState.value then
             w.setState WState.structField
           else w
  writeContainerBody t openingCharacter w

/-- Opening delimiter byte for each container type. -/
def openingOf : CType → Nat
  | .list => leftBracket
  | .sexp => leftParenthesis
  | .struct => leftBrace

/-- Closing delimiter byte for each container type. -/
def closingOf : CType → Nat
  | .list => rightBracket
  | .sexp => rightParenthesis
  | .struct => rightBrace

/-- Modelled from the spec: the public stepIn of the base writer calls
writeContainer with the opening delimiter matching the type. -/
def stepIn (t : CType) (w : PWriter) : PWriter :=
  writeContainer t (openingOf t) w

/-- Source stepOut: pop the top frame first; then fail when nothing
meaningful was popped or when a STRUCT still awaits a value (the pop is
not undone); otherwise emit the guarded newline and de-indent, then the
closing delimiter of the popped type.  The final `none` branch mirrors
the dead default case of the source switch. -/
def stepOut (w : PWriter) : Option WError × PWriter :=
  match w.containerContext with
  | [] => (some WError.notInContainer, w)
  | frame :: rest =>
    let w := { w with containerContext := rest }
    if frame.containerType.isSome = false then
      (some WError.notInContainer, w)
    else if frame.containerType = some CType.struct ∧
            frame.state = WState.value then
      (some WError.expectingStructValue, w)
    else
      let w := if ltDepthPred w.depth w.prettify_depth = true then
                 let w := if frame.clean = false then writePrettyNewLine 0 w
                          else w
                 writePrettyIndent (-1) w
               else w
      match frame.containerType with
      | some CType.list => (none, w.emit [rightBracket])
      | some CType.sexp => (none, w.emit [rightParenthesis])
      | some CType.struct => (none, w.emit [rightBrace])
      | none => (some WError.unexpectedContainerType, w)

/-- One public write operation of the writer, with delegated payload
bytes supplied explicitly. -/
inductive WOp : Type
  | scalar (valueIsNull : Bool) (payload : List Nat)
  | wnull (payload : List Nat)
  | fieldName (token : List Nat)
  | stepInto (t : CType)
  | stepOutOf
deriving DecidableEq, Repr

/-- Dispatch one operation. -/
def runOp : WOp → PWriter → Option WError × PWriter
  | .scalar b p, w => serializeValue b p w
  | .wnull p, w => writeNull p w
  | .fieldName tok, w => writeFieldName tok w
  | .stepInto t, w => (none, stepIn t w)
  | .stepOutOf, w => stepOut w

/-- Run a sequence of operations, stopping at the first error with the
state at the moment of the throw. -/
def runOps : List WOp → PWriter → Option WError × PWriter
  | [], w => (none, w)
  | op :: ops, w =>
    match runOp op w with
    | (some e, w1) => (some e, w1)
    | (none, w1) => runOps ops w1

/-- A writer state produced by some successful operation sequence from
a freshly constructed writer with the same configuration. -/
def Reachable (w : PWriter) : Prop :=
  ∃ ops : List WOp,
    runOps ops (PWriter.init w.indentSize w.prettify_depth) = (none, w)

/-- The container types of the stack, innermost first; the layout
invariants below depend only on this shape. -/
def typesOf (s : List Context) : List (Option CType) :=
  s.map Context.containerType

/-- Number of open containers in a type stack whose entry depth is
strictly below the threshold; the frame at the head of a stack of
length `n + 1` was entered at depth `n`. -/
def countShallowT : List (Option CType) → Option Nat → Nat
  | [], _ => 0
  | t :: rest, pd =>
      countShallowT rest pd +
        (if t.isSome = true ∧ ltDepth rest.length pd = true then 1 else 0)

/-- Number of currently open containers entered at a depth strictly
below the threshold. -/
def countShallow (s : List Context) (pd : Option Nat) : Nat :=
  countShallowT (typesOf s) pd

/-- Well-formed type stacks: a top-level sentinel at the bottom and
real containers above it. -/
def WFT : List (Option CType) → Prop
  | [] => False
  | [t] => t = none
  | t :: rest => t.isSome = true ∧ WFT rest

/-- Well-formed container stacks. -/
def WFStack (s : List Context) : Prop :=
  WFT (typesOf s)

/-- The writer invariant: the stack is well formed and the indent
counter equals the number of open containers entered below the
threshold. -/
def Inv (w : PWriter) : Prop :=
  WFStack w.containerContext ∧
  w.indentCount = (countShallow w.containerContext w.prettify_depth : Int)

/-- Bytes handleSeparator appends, as a function of the current state:
nothing for a clean frame, a bare newline between top-level values, a
comma (list) or space (sexp) followed by a threshold-and-size guarded
newline inside a container, nothing inside a struct. -/
def sepBytes (w : PWriter) : List Nat :=
  if w.currentContainer.clean then []
  else if w.depth = 0 then [lineFeed]
  else
    match w.currentContainer.containerType with
    | some CType.list =>
        comma ::
          (if 0 < w.indentSize ∧ ltDepth w.depth w.prettify_depth = true then
            [lineFeed]
          else [])
    | some CType.sexp =>
        space ::
          (if 0 < w.indentSize ∧ ltDepth w.depth w.prettify_depth = true then
            [lineFeed]
          else [])
    | _ => []

/-- Bytes writePrettyValue appends, as a function of the current
state: the indentation of a value inside a list or sexp when the
indent size is positive and the depth is within the threshold. -/
def pvBytes (w : PWriter) : List Nat :=
  if (0 < w.depth ∧ w.currentContainer.containerType.isSome = true ∧
      w.currentContainer.containerType ≠ some CType.struct) ∧
      0 < w.indentSize ∧ ltDepth w.depth w.prettify_depth = true then
    List.replicate (w.indentCount * (w.indentSize : Int)).toNat space
  else []

/-- Modelled from the spec: the mandatory separator before an element -
the newline between top-level values, the comma between list elements,
the space between sexp elements; struct field commas are handled by the
field-name path. -/
def specMandatorySeparator (w : PWriter) : List Nat :=
  if w.currentContainer.clean then []
  else if w.depth = 0 then [lineFeed]
  else
    match w.currentContainer.containerType with
    | some CType.list => [comma]
    | some CType.sexp => [space]
    | _ => []

/-- Modelled from the spec: with indentSize = 0 every operation appends
only its payload bytes and the mandatory punctuation - the separator of
`specMandatorySeparator`, the comma between struct fields, the
colon-space after a field name, and the container delimiters. -/
def specCompactDelta : WOp → PWriter → List Nat
  | .scalar _ p, w =>
      if w.currentContainer.state = WState.structField then []
      else specMandatorySeparator w ++ p
  | .wnull p, w => specMandatorySeparator w ++ p
  | .fieldName tok, w =>
      if w.currentContainer.containerType ≠ some CType.struct then []
      else if w.currentContainer.state ≠ WState.structField then []
      else (if w.currentContainer.clean then [] else [comma]) ++
        tok ++ [colon, space]
  | .stepInto t, w => specMandatorySeparator w ++ [openingOf t]
  | .stepOutOf, w =>
      match w.containerContext with
      | [] => []
      | frame :: _ =>
        match frame.containerType with
        | none => []
        | some t =>
            if frame.containerType = some CType.struct ∧
                frame.state = WState.value then []
            else [closingOf t]

/-- The threshold-degradation property for a writer whose threshold is
the finite positive d: at depth at or beyond d the pretty helpers emit
nothing, the separator carries no newline, and every kind of element
write appends only its mandatory punctuation and payload; below the
threshold the value indentation is exactly depth times indentSize
spaces. -/
def C5Conclusion (w : PWriter) (d : Nat) : Prop :=
  (∀ i : Int, d ≤ w.depth →
    (writePrettyNewLine i w).out = w.out ∧
    (writePrettyIndent i w).out = w.out) ∧
  (d ≤ w.depth → sepBytes w = specMandatorySeparator w ∧
    lineFeed ∉ specMandatorySeparator w) ∧
  (∀ b p, d ≤ w.depth → w.currentContainer.state ≠ WState.structField →
    (serializeValue b p w).2.out = w.out ++ specMandatorySeparator w ++ p) ∧
  (∀ p, d ≤ w.depth →
    (writeNull p w).2.out = w.out ++ specMandatorySeparator w ++ p) ∧
  (∀ t, d ≤ w.depth →
    (stepIn t w).out = w.out ++ specMandatorySeparator w ++ [openingOf t]) ∧
  (∀ tok, d ≤ w.depth →
    w.currentContainer.containerType = some CType.struct →
    w.currentContainer.state = WState.structField →
    (writeFieldName tok w).2.out = w.out ++
      (if w.currentContainer.clean = false then [comma] else []) ++
      tok ++ [colon, space]) ∧
  (∀ frame rest t, d ≤ w.depth → w.containerContext = frame :: rest →
    frame.containerType = some t →
    ¬(frame.containerType = some CType.struct ∧
      frame.state = WState.value) →
    (stepOut w).2.out = w.out ++ [closingOf t]) ∧
  (0 < w.depth → w.depth < d →
    (writePrettyIndent 0 w).out =
      w.out ++ List.replicate (w.depth * w.indentSize) space)

section Lemmas

variable (w : PWriter)

@[simp] theorem emit_containerContext (bs : List Nat) :
    (w.emit bs).containerContext = w.containerContext := rfl

@[simp] theorem emit_indentCount (bs : List Nat) :
    (w.emit bs).indentCount = w.indentCount := rfl

@[simp] theorem emit_indentSize (bs : List Nat) :
    (w.emit bs).indentSize = w.indentSize := rfl

@[simp] theorem emit_pd (bs : List Nat) :
    (w.emit bs).prettify_depth = w.prettify_depth := rfl

@[simp] theorem emit_out (bs : List Nat) :
    (w.emit bs).out = w.out ++ bs := rfl

@[simp] theorem emit_depth (bs : List Nat) :
    (w.emit bs).depth = w.depth := rfl

@[simp] theorem emit_currentContainer (bs : List Nat) :
    (w.emit bs).currentContainer = w.currentContainer := rfl

@[simp] theorem addIndent_containerContext (i : Int) :
    (w.addIndent i).containerContext = w.containerContext := rfl

@[simp] theorem addIndent_indentCount (i : Int) :
    (w.addIndent i).indentCount = w.indentCount + i := rfl

@[simp] theorem addIndent_indentSize (i : Int) :
    (w.addIndent i).indentSize = w.indentSize := rfl

@[simp] theorem addIndent_pd (i : Int) :
    (w.addIndent i).prettify_depth = w.prettify_depth := rfl

@[simp] theorem addIndent_out (i : Int) :
    (w.addIndent i).out = w.out := rfl

@[simp] theorem addIndent_depth (i : Int) :
    (w.addIndent i).depth = w.depth := rfl

@[simp] theorem addIndent_currentContainer (i : Int) :
    (w.addIndent i).currentContainer = w.currentContainer := rfl

@[simp] theorem setClean_indentCount (b : Bool) :
    (w.setClean b).indentCount = w.indentCount := rfl

@[simp] theorem setClean_indentSize (b : Bool) :
    (w.setClean b).indentSize = w.indentSize := rfl

@[simp] theorem setClean_pd (b : Bool) :
    (w.setClean b).prettify_depth = w.prettify_depth := rfl

@[simp] theorem setClean_out (b : Bool) :
    (w.setClean b).out = w.out := rfl

@[simp] theorem setState_indentCount (s : WState) :
    (w.setState s).indentCount = w.indentCount := rfl

@[simp] theorem setState_indentSize (s : WState) :
    (w.setState s).indentSize = w.indentSize := rfl

@[simp] theorem setState_pd (s : WState) :
    (w.setState s).prettify_depth = w.prettify_depth := rfl

@[simp] theorem setState_out (s : WState) :
    (w.setState s).out = w.out := rfl

@[simp] theorem setClean_typesOf (b : Bool) :
    typesOf (w.setClean b).containerContext = typesOf w.containerContext := by
  cases h : w.containerContext <;> simp [PWriter.setClean, typesOf, h]

@[simp] theorem setState_typesOf (s : WState) :
    typesOf (w.setState s).containerContext = typesOf w.containerContext := by
  cases h : w.containerContext <;> simp [PWriter.setState, typesOf, h]

theorem typesOf_length (s : List Context) :
    (typesOf s).length = s.length := by
  simp [typesOf]

@[simp] theorem typesOf_nil : typesOf ([] : List Context) = [] := rfl

@[simp] theorem typesOf_cons (c : Context) (rest : List Context) :
    typesOf (c :: rest) = c.containerType :: typesOf rest := rfl

theorem depth_eq_of_typesOf {a b : PWriter}
    (h : typesOf a.containerContext = typesOf b.containerContext) :
    a.depth = b.depth := by
  have := congrArg List.length h
  simp [typesOf] at this
  simp [PWriter.depth, this]

@[simp] theorem setClean_depth (b : Bool) :
    (w.setClean b).depth = w.depth :=
  depth_eq_of_typesOf (setClean_typesOf w b)

@[simp] theorem setState_depth (s : WState) :
    (w.setState s).depth = w.depth :=
  depth_eq_of_typesOf (setState_typesOf w s)

theorem writePrettyNewLine_containerContext (i : Int) :
    (writePrettyNewLine i w).containerContext = w.containerContext := by
  simp only [writePrettyNewLine]
  split <;> rfl

theorem writePrettyNewLine_indentCount (i : Int) :
    (writePrettyNewLine i w).indentCount = w.indentCount + i := by
  simp only [writePrettyNewLine]
  split <;> rfl

theorem writePrettyNewLine_indentSize (i : Int) :
    (writePrettyNewLine i w).indentSize = w.indentSize := by
  simp only [writePrettyNewLine]
  split <;> rfl

theorem writePrettyNewLine_pd (i : Int) :
    (writePrettyNewLine i w).prettify_depth = w.prettify_depth := by
  simp only [writePrettyNewLine]
  split <;> rfl

theorem writePrettyNewLine_out (i : Int) :
    (writePrettyNewLine i w).out = w.out ++
      (if 0 < w.indentSize ∧ ltDepth w.depth w.prettify_depth = true then
        [lineFeed]
      else []) := by
  simp only [writePrettyNewLine]
  split <;> simp_all

theorem writePrettyIndent_containerContext (i : Int) :
    (writePrettyIndent i w).containerContext = w.containerContext := by
  simp only [writePrettyIndent]
  split <;> rfl

theorem writePrettyIndent_indentCount (i : Int) :
    (writePrettyIndent i w).indentCount = w.indentCount + i := by
  simp only [writePrettyIndent]
  split <;> rfl

theorem writePrettyIndent_indentSize (i : Int) :
    (writePrettyIndent i w).indentSize = w.indentSize := by
  simp only [writePrettyIndent]
  split <;> rfl

theorem writePrettyIndent_pd (i : Int) :
    (writePrettyIndent i w).prettify_depth = w.prettify_depth := by
  simp only [writePrettyIndent]
  split <;> rfl

theorem writePrettyIndent_out (i : Int) :
    (writePrettyIndent i w).out = w.out ++
      (if 0 < w.indentSize ∧ ltDepth w.depth w.prettify_depth = true then
        List.replicate ((w.indentCount + i) * (w.indentSize : Int)).toNat space
      else []) := by
  simp only [writePrettyIndent]
  split <;> simp_all

theorem writePrettyNewLine_depth (i : Int) :
    (writePrettyNewLine i w).depth = w.depth := by
  simp [PWriter.depth, writePrettyNewLine_containerContext]

theorem writePrettyIndent_depth (i : Int) :
    (writePrettyIndent i w).depth = w.depth := by
  simp [PWriter.depth, writePrettyIndent_containerContext]

theorem handleSeparator_spec :
    (handleSeparator w).out = w.out ++ sepBytes w ∧
    typesOf (handleSeparator w).containerContext = typesOf w.containerContext ∧
    (handleSeparator w).indentCount = w.indentCount ∧
    (handleSeparator w).prettify_depth = w.prettify_depth ∧
    (handleSeparator w).indentSize = w.indentSize := by
  by_cases h0 : w.depth = 0 <;> by_cases hc : w.currentContainer.clean
  · simp [handleSeparator, sepBytes, h0, hc]
  · simp [handleSeparator, sepBytes, h0, hc]
  · simp [handleSeparator, sepBytes, h0, hc]
  · cases ht : w.currentContainer.containerType with
    | none => simp [handleSeparator, sepBytes, h0, hc, ht]
    | some t =>
        cases t <;>
          by_cases hlt : ltDepth w.depth w.prettify_depth = true <;>
            simp [handleSeparator, sepBytes, h0, hc, ht, hlt,
              writePrettyNewLine_out, writePrettyNewLine_containerContext,
              writePrettyNewLine_indentCount, writePrettyNewLine_pd,
              writePrettyNewLine_indentSize]

theorem handleSeparator_depth :
    (handleSeparator w).depth = w.depth :=
  depth_eq_of_typesOf (handleSeparator_spec w).2.1

theorem writePrettyValue_spec :
    (writePrettyValue w).containerContext = w.containerContext ∧
    (writePrettyValue w).indentCount = w.indentCount ∧
    (writePrettyValue w).prettify_depth = w.prettify_depth ∧
    (writePrettyValue w).indentSize = w.indentSize := by
  unfold writePrettyValue
  split
  · simp [writePrettyIndent_containerContext, writePrettyIndent_indentCount,
      writePrettyIndent_pd, writePrettyIndent_indentSize]
  · exact ⟨rfl, rfl, rfl, rfl⟩

theorem writePrettyValue_out :
    (writePrettyValue w).out = w.out ++ pvBytes w := by
  unfold writePrettyValue pvBytes
  by_cases h : 0 < w.depth ∧ w.currentContainer.containerType.isSome = true ∧
      w.currentContainer.containerType ≠ some CType.struct
  · by_cases h2 : 0 < w.indentSize ∧ ltDepth w.depth w.prettify_depth = true <;>
      simp [h, h2, writePrettyIndent_out]
  · simp [h]

theorem currentContainer_type_eq_of_typesOf {a b : PWriter}
    (h : typesOf a.containerContext = typesOf b.containerContext) :
    a.currentContainer.containerType = b.currentContainer.containerType := by
  cases ha : a.containerContext with
  | nil =>
      cases hb : b.containerContext with
      | nil => simp [PWriter.currentContainer, ha, hb]
      | cons c rest =>
          rw [ha, hb] at h
          simp [typesOf] at h
  | cons c rest =>
      cases hb : b.containerContext with
      | nil =>
          rw [ha, hb] at h
          simp [typesOf] at h
      | cons c2 rest2 =>
          rw [ha, hb] at h
          simp [typesOf] at h
          simp [PWriter.currentContainer, ha, hb, h.1]

theorem pvBytes_congr {a b : PWriter}
    (hty : typesOf a.containerContext = typesOf b.containerContext)
    (hic : a.indentCount = b.indentCount)
    (hpd : a.prettify_depth = b.prettify_depth)
    (hsz : a.indentSize = b.indentSize) :
    pvBytes a = pvBytes b := by
  unfold pvBytes
  rw [hic, hpd, hsz, depth_eq_of_typesOf hty,
    currentContainer_type_eq_of_typesOf hty]

theorem sepBytes_congr {a b : PWriter}
    (hty : typesOf a.containerContext = typesOf b.containerContext)
    (hclean : a.currentContainer.clean = b.currentContainer.clean)
    (hpd : a.prettify_depth = b.prettify_depth)
    (hsz : a.indentSize = b.indentSize) :
    sepBytes a = sepBytes b := by
  unfold sepBytes
  rw [hclean, hpd, hsz, depth_eq_of_typesOf hty,
    currentContainer_type_eq_of_typesOf hty]

theorem setState_clean (s : WState) :
    (w.setState s).currentContainer.clean = w.currentContainer.clean := by
  cases h : w.containerContext <;>
    simp [PWriter.setState, PWriter.currentContainer, h, Context.new]

theorem writeNull_run (p : List Nat) :
    (writeNull p w).1 = none ∧
    (writeNull p w).2.out = w.out ++ sepBytes w ++ pvBytes w ++ p ∧
    typesOf (writeNull p w).2.containerContext = typesOf w.containerContext ∧
    (writeNull p w).2.indentCount = w.indentCount ∧
    (writeNull p w).2.prettify_depth = w.prettify_depth ∧
    (writeNull p w).2.indentSize = w.indentSize := by
  obtain ⟨ho, hty, hic, hpd, hsz⟩ := handleSeparator_spec w
  have hpv : pvBytes (handleSeparator w) = pvBytes w :=
    pvBytes_congr hty hic hpd hsz
  obtain ⟨pcc, pic, ppd, psz⟩ := writePrettyValue_spec (handleSeparator w)
  have pout := writePrettyValue_out (handleSeparator w)
  have hY : writeNull p w =
      (none,
        if (((writePrettyValue (handleSeparator w)).emit
              p)).currentContainer.containerType = some CType.struct then
          (((writePrettyValue (handleSeparator w)).emit p)).setState
            WState.structField
        else ((writePrettyValue (handleSeparator w)).emit p)) := rfl
  rw [hY]
  by_cases hcond : (((writePrettyValue (handleSeparator w)).emit
      p)).currentContainer.containerType = some CType.struct <;>
    simp only [hcond, if_true, if_false, ite_true, ite_false] <;>
      exact ⟨by simp,
        by simp [pout, ho, hpv],
        by simp [pcc, hty],
        by simp [pic, hic],
        by simp [ppd, hpd],
        by simp [psz, hsz]⟩

theorem serializeValue_run (b : Bool) (p : List Nat)
    (h : w.currentContainer.state ≠ WState.structField) :
    (serializeValue b p w).1 = none ∧
    (serializeValue b p w).2.out = w.out ++ sepBytes w ++ pvBytes w ++ p ∧
    typesOf (serializeValue b p w).2.containerContext =
      typesOf w.containerContext ∧
    (serializeValue b p w).2.indentCount = w.indentCount ∧
    (serializeValue b p w).2.prettify_depth = w.prettify_depth ∧
    (serializeValue b p w).2.indentSize = w.indentSize := by
  cases b with
  | false =>
      have heq : serializeValue false p w = writeNull p w := by
        simp [serializeValue, writeNull, h]
      rw [heq]
      exact writeNull_run w p
  | true =>
      have heq : serializeValue true p w = writeNull p w := by
        simp [serializeValue, h]
      rw [heq]
      exact writeNull_run w p

theorem stepInPush_fields (t : CType) :
    (stepInPush t w).containerContext =
      Context.new (some t) :: w.containerContext ∧
    (stepInPush t w).indentCount = w.indentCount ∧
    (stepInPush t w).prettify_depth = w.prettify_depth ∧
    (stepInPush t w).indentSize = w.indentSize ∧
    (stepInPush t w).out = w.out :=
  ⟨rfl, rfl, rfl, rfl, rfl⟩

theorem writeContainerBody_run (t : CType) (c : Nat) :
    typesOf (writeContainerBody t c w).containerContext =
      some t :: typesOf w.containerContext ∧
    (writeContainerBody t c w).indentCount = w.indentCount +
      (if ltDepthPred w.depth w.prettify_depth = true then 1 else 0) ∧
    (writeContainerBody t c w).prettify_depth = w.prettify_depth ∧
    (writeContainerBody t c w).indentSize = w.indentSize ∧
    (writeContainerBody t c w).out =
      w.out ++ sepBytes w ++ pvBytes w ++ [c] ++
        (if ltDepthPred w.depth w.prettify_depth = true ∧ 0 < w.indentSize ∧
            ltDepth w.depth w.prettify_depth = true then [lineFeed]
        else []) := by
  obtain ⟨ho, hty, hic, hpd, hsz⟩ := handleSeparator_spec w
  have hpv : pvBytes (handleSeparator w) = pvBytes w :=
    pvBytes_congr hty hic hpd hsz
  obtain ⟨pcc, pic, ppd, psz⟩ := writePrettyValue_spec (handleSeparator w)
  have pout := writePrettyValue_out (handleSeparator w)
  have hd1 : (handleSeparator w).depth = w.depth := handleSeparator_depth w
  have hd2 : (writePrettyValue (handleSeparator w)).depth =
      (handleSeparator w).depth := by
    simp [PWriter.depth, pcc]
  have hred : writeContainerBody t c w =
      stepInPush t
        (if ltDepthPred (((writePrettyValue (handleSeparator w)).emit [c])).depth
            (((writePrettyValue (handleSeparator w)).emit [c])).prettify_depth =
            true then
          writePrettyNewLine 1 ((writePrettyValue (handleSeparator w)).emit [c])
        else (writePrettyValue (handleSeparator w)).emit [c]) := rfl
  have hdep : (((writePrettyValue (handleSeparator w)).emit [c])).depth =
      w.depth := by
    rw [emit_depth, hd2, hd1]
  have hpdep : (((writePrettyValue (handleSeparator w)).emit [c])).prettify_depth =
      w.prettify_depth := by
    rw [emit_pd, ppd, hpd]
  rw [hred, hdep, hpdep]
  by_cases hl : ltDepthPred w.depth w.prettify_depth = true <;>
    simp only [hl, if_true, if_false, ite_true, ite_false]
  · refine ⟨?_, ?_, ?_, ?_, ?_⟩
    · simp [stepInPush, Context.new,
        writePrettyNewLine_containerContext, pcc, hty]
    · simp [stepInPush, writePrettyNewLine_indentCount, pic, hic]
    · simp [stepInPush, writePrettyNewLine_pd, ppd, hpd]
    · simp [stepInPush, writePrettyNewLine_indentSize, psz, hsz]
    · have hnlo := writePrettyNewLine_out
        ((writePrettyValue (handleSeparator w)).emit [c]) 1
      rw [hdep, hpdep] at hnlo
      have hsz2 : (((writePrettyValue (handleSeparator w)).emit [c])).indentSize =
          w.indentSize := by rw [emit_indentSize, psz, hsz]
      rw [hsz2] at hnlo
      simp only [stepInPush]
      rw [hnlo]
      simp [pout, ho, hpv, hl]
  · refine ⟨?_, ?_, ?_, ?_, ?_⟩
    · simp [stepInPush, Context.new, pcc, hty]
    · simp [stepInPush, pic, hic]
    · simp [stepInPush, ppd, hpd]
    · simp [stepInPush, psz, hsz]
    · simp only [stepInPush]
      simp [pout, ho, hpv, hl]

theorem writeContainer_run (t : CType) (c : Nat) :
    typesOf (writeContainer t c w).containerContext =
      some t :: typesOf w.containerContext ∧
    (writeContainer t c w).indentCount = w.indentCount +
      (if ltDepthPred w.depth w.prettify_depth = true then 1 else 0) ∧
    (writeContainer t c w).prettify_depth = w.prettify_depth ∧
    (writeContainer t c w).indentSize = w.indentSize ∧
    (writeContainer t c w).out = w.out ++ sepBytes w ++ pvBytes w ++ [c] ++
      (if ltDepthPred w.depth w.prettify_depth = true ∧ 0 < w.indentSize ∧
          ltDepth w.depth w.prettify_depth = true then [lineFeed] else []) := by
  by_cases hflip : w.currentContainer.containerType = some CType.struct ∧
      w.currentContainer.state = WState.value
  · have heq : writeContainer t c w =
        writeContainerBody t c (w.setState WState.structField) := by
      simp [writeContainer, hflip]
    obtain ⟨a1, a2, a3, a4, a5⟩ :=
      writeContainerBody_run (w.setState WState.structField) t c
    have e1 : typesOf (w.setState WState.structField).containerContext =
        typesOf w.containerContext := setState_typesOf w _
    have e2 : (w.setState WState.structField).depth = w.depth :=
      setState_depth w _
    have e3 : sepBytes (w.setState WState.structField) = sepBytes w :=
      sepBytes_congr e1 (setState_clean w _) rfl rfl
    have e4 : pvBytes (w.setState WState.structField) = pvBytes w :=
      pvBytes_congr e1 rfl rfl rfl
    rw [heq]
    rw [e1] at a1
    rw [e2] at a2 a5
    rw [e3, e4] at a5
    exact ⟨a1, a2, a3, a4, a5⟩
  · have heq : writeContainer t c w = writeContainerBody t c w := by
      simp [writeContainer, hflip]
    rw [heq]
    exact writeContainerBody_run w t c

theorem stepOut_run (frame : Context) (rest : List Context)
    (hcr : w.containerContext = frame :: rest)
    (t : CType) (hframe : frame.containerType = some t)
    (hnsv : ¬(frame.containerType = some CType.struct ∧
        frame.state = WState.value)) :
    (stepOut w).1 = none ∧
    (stepOut w).2.containerContext = rest ∧
    (stepOut w).2.prettify_depth = w.prettify_depth ∧
    (stepOut w).2.indentSize = w.indentSize ∧
    (stepOut w).2.indentCount = w.indentCount +
      (if ltDepthPred (rest.length - 1) w.prettify_depth = true then -1
      else 0) ∧
    (stepOut w).2.out = w.out ++
      (if ltDepthPred (rest.length - 1) w.prettify_depth = true then
        (if frame.clean = false ∧ 0 < w.indentSize ∧
            ltDepth (rest.length - 1) w.prettify_depth = true then [lineFeed]
        else []) ++
        (if 0 < w.indentSize ∧
            ltDepth (rest.length - 1) w.prettify_depth = true then
          List.replicate
            ((w.indentCount + -1) * (w.indentSize : Int)).toNat space
        else [])
      else []) ++ [closingOf t] := by
  have hbody : stepOut w =
      (none,
        (if ltDepthPred ({ w with containerContext := rest } : PWriter).depth
            ({ w with containerContext := rest } :
              PWriter).prettify_depth = true then
          writePrettyIndent (-1)
            (if frame.clean = false then
              writePrettyNewLine 0 ({ w with containerContext := rest })
            else ({ w with containerContext := rest }))
        else ({ w with containerContext := rest })).emit [closingOf t]) := by
    cases t <;> simp only [stepOut, hcr] <;>
      rw [if_neg (by simp [hframe]), if_neg hnsv] <;>
        simp only [hframe, closingOf]
  have hdepth : ({ w with containerContext := rest } : PWriter).depth =
      rest.length - 1 := rfl
  have hpd2 : ({ w with containerContext := rest } :
      PWriter).prettify_depth = w.prettify_depth := rfl
  rw [hbody, hdepth, hpd2]
  by_cases hp : ltDepthPred (rest.length - 1) w.prettify_depth = true
  · rw [if_pos hp]
    by_cases hcl : frame.clean = false
    · rw [if_pos hcl]
      refine ⟨rfl, ?_, ?_, ?_, ?_, ?_⟩
      · simp [writePrettyIndent_containerContext,
          writePrettyNewLine_containerContext]
      · simp [writePrettyIndent_pd, writePrettyNewLine_pd]
      · simp [writePrettyIndent_indentSize, writePrettyNewLine_indentSize]
      · simp [hp, writePrettyIndent_indentCount,
          writePrettyNewLine_indentCount]
      · have h1 := writePrettyNewLine_out
          ({ w with containerContext := rest } : PWriter) 0
        have h2 := writePrettyIndent_out
          (writePrettyNewLine 0 ({ w with containerContext := rest })) (-1)
        rw [writePrettyNewLine_indentSize, writePrettyNewLine_depth,
          writePrettyNewLine_pd, writePrettyNewLine_indentCount] at h2
        simp only [emit_out, h2, h1]
        simp [hp, hcl, hdepth, hpd2]
    · rw [if_neg hcl]
      refine ⟨rfl, ?_, ?_, ?_, ?_, ?_⟩
      · simp [writePrettyIndent_containerContext]
      · simp [writePrettyIndent_pd]
      · simp [writePrettyIndent_indentSize]
      · simp [hp, writePrettyIndent_indentCount]
      · have h2 := writePrettyIndent_out
          ({ w with containerContext := rest } : PWriter) (-1)
        simp only [emit_out, h2]
        simp [hp, hcl, hdepth, hpd2]
  · rw [if_neg hp]
    refine ⟨rfl, rfl, rfl, rfl, by simp [hp], by simp [hp]⟩

theorem ltDepthPred_imp (n : Nat) (pd : Option Nat)
    (h : ltDepthPred n pd = true) : ltDepth n pd = true := by
  cases pd with
  | none => rfl
  | some d =>
      simp [ltDepthPred] at h
      simp [ltDepth]
      omega

theorem ltDepthPred_succ (n : Nat) (pd : Option Nat) :
    ltDepthPred n pd = ltDepth (n + 1) pd := by
  cases pd <;> simp [ltDepthPred, ltDepth]

theorem stepIn_init (t : CType) (sz : Nat) (pd : Option Nat) :
    stepIn t (PWriter.init sz pd) =
      { containerContext := [Context.new (some t),
          { containerType := none, state := WState.value, clean := false }]
        indentCount := if ltDepthPred 0 pd = true then 1 else 0
        indentSize := sz
        prettify_depth := pd
        out := [openingOf t] ++
          (if 0 < sz ∧ ltDepthPred 0 pd = true then [lineFeed] else []) } := by
  by_cases hp : ltDepthPred 0 pd = true <;> by_cases hsz : 0 < sz <;>
    simp [stepIn, writeContainer, writeContainerBody, handleSeparator,
      writePrettyValue, writePrettyNewLine, stepInPush, PWriter.init,
      PWriter.setClean, PWriter.setState, PWriter.currentContainer,
      PWriter.depth, PWriter.emit, PWriter.addIndent, Context.new, hp, hsz,
      ltDepthPred_imp 0 pd]

end Lemmas

/-- Claim C6: on a fresh writer with indentSize = 2 and unbounded
prettifyDepth, opening a LIST, writing the scalars 1 and 2 and closing
the LIST emits exactly the bytes of `[`, newline, two spaces, `1`,
comma, newline, two spaces, `2`, newline, `]`. -/
theorem C6_list_scenario :
    (runOps [WOp.stepInto CType.list, WOp.scalar false [49],
        WOp.scalar false [50], WOp.stepOutOf] (PWriter.init 2 none)).1 =
      none ∧
    (runOps [WOp.stepInto CType.list, WOp.scalar false [49],
        WOp.scalar false [50], WOp.stepOutOf] (PWriter.init 2 none)).2.out =
      [leftBracket, lineFeed, space, space, 49, comma, lineFeed,
        space, space, 50, lineFeed, rightBracket] := by
  decide

/-- Claim C7: at depth 0 the separator logic emits nothing for the
first value (flipping the clean flag instead) and exactly one newline,
never a comma, before every later value; concretely scalar 1 then
scalar 2 produce the bytes `1`, newline, `2`. -/
theorem C7_top_level_separation (w : PWriter) (h0 : w.depth = 0) :
    (w.currentContainer.clean = true → handleSeparator w = w.setClean false) ∧
    (w.currentContainer.clean = false → handleSeparator w = w.emit [lineFeed]) ∧
    (runOps [WOp.scalar false [49], WOp.scalar false [50]]
        (PWriter.init 2 none)).1 = none ∧
    (runOps [WOp.scalar false [49], WOp.scalar false [50]]
        (PWriter.init 2 none)).2.out = [49, lineFeed, 50] := by
  refine ⟨?_, ?_, by decide, by decide⟩ <;> intro hc <;>
    simp [handleSeparator, h0, hc]

/-- Witness for C7: at the freshly constructed writer (depth 0, clean)
the separator logic only flips the clean flag. -/
theorem C7_witness :
    (PWriter.init 2 none).depth = 0 ∧
    (PWriter.init 2 none).currentContainer.clean = true ∧
    handleSeparator (PWriter.init 2 none) =
      (PWriter.init 2 none).setClean false :=
  ⟨by decide, by decide,
    (C7_top_level_separation (PWriter.init 2 none) (by decide)).1 (by decide)⟩

theorem setState_currentContainer_state (w : PWriter) (s : WState)
    (h : w.containerContext ≠ []) :
    (w.setState s).currentContainer.state = s := by
  cases hc : w.containerContext with
  | nil => exact absurd hc h
  | cons c rest => simp [PWriter.setState, PWriter.currentContainer, hc]

theorem writeFieldName_success_spec (tok : List Nat) (w : PWriter)
    (ht : w.currentContainer.containerType = some CType.struct)
    (hs : w.currentContainer.state = WState.structField) :
    (writeFieldName tok w).1 = none ∧
    ((writeFieldName tok w).2).containerContext =
      (w.setState WState.value).containerContext ∧
    (writeFieldName tok w).2.out =
      w.out ++
        (if w.currentContainer.clean = false then
          comma ::
            (if 0 < w.indentSize ∧ ltDepth w.depth w.prettify_depth = true then
              [lineFeed]
            else [])
        else []) ++
        (if 0 < w.indentSize ∧ ltDepth w.depth w.prettify_depth = true then
          List.replicate (w.indentCount * (w.indentSize : Int)).toNat space
        else []) ++ tok ++ [colon, space] := by
  by_cases hcl : w.currentContainer.clean = false <;>
    simp [writeFieldName, ht, hs, hcl, PWriter.setState,
      writePrettyIndent_containerContext, writePrettyNewLine_containerContext,
      writePrettyIndent_out, writePrettyNewLine_out,
      writePrettyIndent_indentCount, writePrettyNewLine_indentCount,
      writePrettyIndent_pd, writePrettyNewLine_pd,
      writePrettyIndent_indentSize, writePrettyNewLine_indentSize,
      writePrettyIndent_depth, writePrettyNewLine_depth]

/-- Claim C8: writeFieldName fails with the structural error for a
non-STRUCT container, fails with the structural error for a STRUCT not
expecting a field, every error it returns is structural, and on
success the frame state becomes EXPECT_VALUE. -/
theorem C8_writeFieldName_grammar (w : PWriter) (tok : List Nat) :
    (w.currentContainer.containerType ≠ some CType.struct →
      writeFieldName tok w = (some WError.fieldNameOutsideStruct, w)) ∧
    (w.currentContainer.containerType = some CType.struct →
      w.currentContainer.state ≠ WState.structField →
      writeFieldName tok w = (some WError.expectingStructValue, w)) ∧
    (∀ e, (writeFieldName tok w).1 = some e → e.isStructural = true) ∧
    ((writeFieldName tok w).1 = none →
      ((writeFieldName tok w).2).currentContainer.state = WState.value) := by
  by_cases ht : w.currentContainer.containerType = some CType.struct
  · by_cases hs : w.currentContainer.state = WState.structField
    · have hstack : w.containerContext ≠ [] := by
        intro h
        rw [PWriter.currentContainer, h] at ht
        simp [Context.new] at ht
      obtain ⟨h1, h2, _⟩ := writeFieldName_success_spec tok w ht hs
      refine ⟨fun h => absurd ht h, fun _ hs2 => absurd hs hs2, ?_, ?_⟩
      · intro e he
        rw [h1] at he
        exact absurd he (by simp)
      · intro _
        have hne : ((writeFieldName tok w).2).containerContext ≠ [] := by
          rw [h2]
          cases hc : w.containerContext with
          | nil => exact absurd hc hstack
          | cons c rest => simp [PWriter.setState, hc]
        have hcc : ((writeFieldName tok w).2).currentContainer =
            (w.setState WState.value).currentContainer := by
          rw [PWriter.currentContainer, PWriter.currentContainer, h2]
        rw [hcc]
        exact setState_currentContainer_state w WState.value hstack
    · refine ⟨fun h => absurd ht h, fun _ hs2 => ?_, ?_, ?_⟩
      · simp [writeFieldName, ht, hs]
      · intro e he
        simp [writeFieldName, ht, hs] at he
        simp [← he, WError.isStructural]
      · intro hnone
        simp [writeFieldName, ht, hs] at hnone
  · refine ⟨fun _ => ?_, fun h => absurd h ht, ?_, ?_⟩
    · simp [writeFieldName, ht]
    · intro e he
      simp [writeFieldName, ht] at he
      simp [← he, WError.isStructural]
    · intro hnone
      simp [writeFieldName, ht] at hnone

/-- Witness for C8: inside a freshly opened STRUCT a successful
writeFieldName leaves the frame expecting a value. -/
theorem C8_witness :
    (writeFieldName [97] (runOps [WOp.stepInto CType.struct]
        (PWriter.init 2 none)).2).1 = none ∧
    ((writeFieldName [97] (runOps [WOp.stepInto CType.struct]
        (PWriter.init 2 none)).2).2).currentContainer.state = WState.value :=
  ⟨by decide,
    (C8_writeFieldName_grammar
        (runOps [WOp.stepInto CType.struct] (PWriter.init 2 none)).2
        [97]).2.2.2 (by decide)⟩

/-- Claim C10: when stepOut fails - nothing meaningful to pop, or the
popped STRUCT still awaits a field value - the top frame has already
been removed from the stack when the error is reported, and no byte
was emitted. -/
theorem C10_stepOut_mutates_before_throw (w : PWriter) :
    (w.containerContext = [] → stepOut w = (some WError.notInContainer, w)) ∧
    (∀ frame rest, w.containerContext = frame :: rest →
      (frame.containerType = none ∨
        (frame.containerType = some CType.struct ∧
          frame.state = WState.value)) →
      (stepOut w).1.isSome = true ∧
      (stepOut w).2.containerContext = rest ∧
      (stepOut w).2.out = w.out) := by
  constructor
  · intro h
    simp only [stepOut, h]
  · intro frame rest hcr hbad
    rcases hbad with hn | ⟨hst, hv⟩
    · simp [stepOut, hcr, hn]
    · simp [stepOut, hcr, hst, hv]

/-- Witness for C10: stepping out of a freshly opened STRUCT with an
announced but unfulfilled field pops the frame and then fails. -/
theorem C10_witness :
    (stepOut (runOps [WOp.stepInto CType.struct, WOp.fieldName [97]]
        (PWriter.init 2 none)).2).1.isSome = true ∧
    (stepOut (runOps [WOp.stepInto CType.struct, WOp.fieldName [97]]
        (PWriter.init 2 none)).2).2.containerContext =
      [{ containerType := none, state := WState.value, clean := false }] ∧
    (stepOut (runOps [WOp.stepInto CType.struct, WOp.fieldName [97]]
        (PWriter.init 2 none)).2).2.out =
      (runOps [WOp.stepInto CType.struct, WOp.fieldName [97]]
        (PWriter.init 2 none)).2.out :=
  (C10_stepOut_mutates_before_throw
      (runOps [WOp.stepInto CType.struct, WOp.fieldName [97]]
        (PWriter.init 2 none)).2).2
    { containerType := some CType.struct, state := WState.value, clean := true }
    [{ containerType := none, state := WState.value, clean := false }]
    (by decide) (by decide)

/-- Claim C1 counterexample: with the enclosing STRUCT frame in
EXPECT_STRUCT_FIELD (no field name supplied), a direct writeNull does
not fail and does emit the null payload bytes, contradicting the
claimed StructuralError for the null path. -/
theorem C1_counterexample :
    (runOps [WOp.stepInto CType.struct]
        (PWriter.init 2 none)).2.currentContainer.state =
      WState.structField ∧
    (runOps [WOp.stepInto CType.struct, WOp.wnull [110, 117, 108, 108]]
        (PWriter.init 2 none)).1 = none ∧
    (runOps [WOp.stepInto CType.struct, WOp.wnull [110, 117, 108, 108]]
        (PWriter.init 2 none)).2.out =
      [leftBrace, lineFeed, 110, 117, 108, 108] := by
  decide

/-- Claim C1 (amended): only the generic scalar path checks the STRUCT
frame state - `_serializeValue` fails with the structural error and
leaves the writer untouched when a field name is expected (also when
the value is null, since the check precedes the redirect), while
writeNull and writeContainer perform no such check and never fail. -/
theorem C1_struct_field_value_guard (w : PWriter) (p : List Nat) (t : CType)
    (h : w.currentContainer.state = WState.structField) :
    serializeValue false p w = (some WError.expectingStructField, w) ∧
    serializeValue true p w = (some WError.expectingStructField, w) ∧
    (WError.expectingStructField).isStructural = true ∧
    (writeNull p w).1 = none ∧
    (runOp (WOp.stepInto t) w).1 = none := by
  refine ⟨by simp [serializeValue, h], by simp [serializeValue, h],
    rfl, rfl, rfl⟩

/-- Witness for C1 inside a freshly opened STRUCT. -/
theorem C1_witness :
    serializeValue false [49]
        (runOps [WOp.stepInto CType.struct] (PWriter.init 2 none)).2 =
      (some WError.expectingStructField,
        (runOps [WOp.stepInto CType.struct] (PWriter.init 2 none)).2) ∧
    serializeValue true [49]
        (runOps [WOp.stepInto CType.struct] (PWriter.init 2 none)).2 =
      (some WError.expectingStructField,
        (runOps [WOp.stepInto CType.struct] (PWriter.init 2 none)).2) ∧
    (WError.expectingStructField).isStructural = true ∧
    (writeNull [49]
        (runOps [WOp.stepInto CType.struct] (PWriter.init 2 none)).2).1 =
      none ∧
    (runOp (WOp.stepInto CType.list)
        (runOps [WOp.stepInto CType.struct] (PWriter.init 2 none)).2).1 =
      none :=
  C1_struct_field_value_guard
    (runOps [WOp.stepInto CType.struct] (PWriter.init 2 none)).2
    [49] CType.list (by decide)

/-- Claim C2 counterexample: opening a LIST and immediately closing it
on a fresh writer with indentSize = 2 and unbounded prettifyDepth
emits an interior newline between the two delimiters, not the bare
pair of delimiter bytes. -/
theorem C2_counterexample :
    (runOps [WOp.stepInto CType.list, WOp.stepOutOf]
        (PWriter.init 2 none)).2.out =
      [leftBracket, lineFeed, rightBracket] ∧
    (runOps [WOp.stepInto CType.list, WOp.stepOutOf]
        (PWriter.init 2 none)).2.out ≠ [leftBracket, rightBracket] := by
  decide

/-- Claim C3 counterexample: with prettifyDepth = 1 the second field
name of a struct at depth 1 is preceded by a comma alone - no newline
is emitted anywhere in the run, so the struct field newline is not
unconditional. -/
theorem C3_counterexample :
    (runOps [WOp.stepInto CType.struct, WOp.fieldName [97],
        WOp.scalar false [49], WOp.fieldName [98]]
        (PWriter.init 2 (some 1))).1 = none ∧
    (runOps [WOp.stepInto CType.struct, WOp.fieldName [97],
        WOp.scalar false [49], WOp.fieldName [98]]
        (PWriter.init 2 (some 1))).2.out =
      [leftBrace, 97, colon, space, 49, comma, 98, colon, space] ∧
    lineFeed ∉
      (runOps [WOp.stepInto CType.struct, WOp.fieldName [97],
          WOp.scalar false [49], WOp.fieldName [98]]
          (PWriter.init 2 (some 1))).2.out := by
  decide

/-- Claim C2 (amended): opening a container and immediately closing it
on a fresh writer emits the opening delimiter, then a single interior
newline exactly when the indent size is positive and the new depth is
within the threshold (the newline is emitted on opening, before the
container is known to be empty), then the closing delimiter with no
further separator or indentation; only with indentSize = 0 or a
threshold of at most one are the bare two delimiter bytes emitted. -/
theorem C2_empty_container (t : CType) (sz : Nat) (pd : Option Nat) :
    (runOps [WOp.stepInto t, WOp.stepOutOf] (PWriter.init sz pd)).1 = none ∧
    (runOps [WOp.stepInto t, WOp.stepOutOf] (PWriter.init sz pd)).2.out =
      [openingOf t] ++
        (if 0 < sz ∧ ltDepthPred 0 pd = true then [lineFeed] else []) ++
      [closingOf t] := by
  have hrun : runOps [WOp.stepInto t, WOp.stepOutOf] (PWriter.init sz pd) =
      stepOut (stepIn t (PWriter.init sz pd)) := by
    simp only [runOps, runOp]
    rcases h : stepOut (stepIn t (PWriter.init sz pd)) with ⟨e, w1⟩
    cases e <;> rfl
  rw [hrun, stepIn_init t sz pd]
  obtain ⟨o1, o2, o3, o4, o5, o6⟩ :=
    stepOut_run
      ({ containerContext := [Context.new (some t),
          { containerType := none, state := WState.value, clean := false }]
         indentCount := if ltDepthPred 0 pd = true then 1 else 0
         indentSize := sz
         prettify_depth := pd
         out := [openingOf t] ++
           (if 0 < sz ∧ ltDepthPred 0 pd = true then [lineFeed] else []) })
      (Context.new (some t))
      [{ containerType := none, state := WState.value, clean := false }]
      rfl t rfl
      (by cases t <;> simp [Context.new])
  refine ⟨o1, ?_⟩
  rw [o6]
  by_cases hp : ltDepthPred 0 pd = true <;> by_cases hsz : 0 < sz <;>
    simp [hp, hsz, Context.new, ltDepthPred_imp 0 pd]

/-- Claim C3 (amended): when a STRUCT frame is not clean, the second
and later field names are preceded by a comma and then a newline only
when the indent size is positive and the current depth is within the
prettifyDepth threshold - the same guard writePrettyNewLine applies
everywhere, so the struct field newline is threshold-dependent, not
unconditional; at or beyond the threshold the comma alone is
emitted. -/
theorem C3_struct_field_separator (w : PWriter) (tok : List Nat)
    (ht : w.currentContainer.containerType = some CType.struct)
    (hs : w.currentContainer.state = WState.structField)
    (hc : w.currentContainer.clean = false) :
    (writeFieldName tok w).1 = none ∧
    (writeFieldName tok w).2.out =
      w.out ++ [comma] ++
        (if 0 < w.indentSize ∧ ltDepth w.depth w.prettify_depth = true then
          [lineFeed]
        else []) ++
        (if 0 < w.indentSize ∧ ltDepth w.depth w.prettify_depth = true then
          List.replicate (w.indentCount * (w.indentSize : Int)).toNat space
        else []) ++ tok ++ [colon, space] := by
  obtain ⟨h1, _, h3⟩ := writeFieldName_success_spec tok w ht hs
  refine ⟨h1, ?_⟩
  rw [h3]
  simp [hc]

/-- Witness for C3 on a struct whose first field is already written,
with unbounded threshold and indentSize = 2 (comma, newline and four
indentation spaces precede the second field name). -/
theorem C3_witness :
    (runOps [WOp.stepInto CType.struct, WOp.fieldName [97],
        WOp.scalar false [49]]
        (PWriter.init 2 none)).2.currentContainer.containerType =
      some CType.struct ∧
    (runOps [WOp.stepInto CType.struct, WOp.fieldName [97],
        WOp.scalar false [49]]
        (PWriter.init 2 none)).2.currentContainer.state =
      WState.structField ∧
    (runOps [WOp.stepInto CType.struct, WOp.fieldName [97],
        WOp.scalar false [49]]
        (PWriter.init 2 none)).2.currentContainer.clean = false ∧
    ((writeFieldName [98] (runOps [WOp.stepInto CType.struct,
        WOp.fieldName [97], WOp.scalar false [49]]
        (PWriter.init 2 none)).2).1 = none ∧
      (writeFieldName [98] (runOps [WOp.stepInto CType.struct,
          WOp.fieldName [97], WOp.scalar false [49]]
          (PWriter.init 2 none)).2).2.out =
        (runOps [WOp.stepInto CType.struct, WOp.fieldName [97],
            WOp.scalar false [49]] (PWriter.init 2 none)).2.out ++
          [comma] ++
          (if 0 < (runOps [WOp.stepInto CType.struct, WOp.fieldName [97],
                WOp.scalar false [49]]
                (PWriter.init 2 none)).2.indentSize ∧
              ltDepth (runOps [WOp.stepInto CType.struct,
                  WOp.fieldName [97], WOp.scalar false [49]]
                  (PWriter.init 2 none)).2.depth
                (runOps [WOp.stepInto CType.struct, WOp.fieldName [97],
                    WOp.scalar false [49]]
                    (PWriter.init 2 none)).2.prettify_depth = true then
            [lineFeed]
          else []) ++
          (if 0 < (runOps [WOp.stepInto CType.struct, WOp.fieldName [97],
                WOp.scalar false [49]]
                (PWriter.init 2 none)).2.indentSize ∧
              ltDepth (runOps [WOp.stepInto CType.struct,
                  WOp.fieldName [97], WOp.scalar false [49]]
                  (PWriter.init 2 none)).2.depth
                (runOps [WOp.stepInto CType.struct, WOp.fieldName [97],
                    WOp.scalar false [49]]
                    (PWriter.init 2 none)).2.prettify_depth = true then
            List.replicate
              ((runOps [WOp.stepInto CType.struct, WOp.fieldName [97],
                  WOp.scalar false [49]]
                  (PWriter.init 2 none)).2.indentCount *
                ((runOps [WOp.stepInto CType.struct, WOp.fieldName [97],
                    WOp.scalar false [49]]
                    (PWriter.init 2 none)).2.indentSize : Int)).toNat space
          else []) ++ [98] ++ [colon, space]) :=
  ⟨by decide, by decide, by decide,
    C3_struct_field_separator
      (runOps [WOp.stepInto CType.struct, WOp.fieldName [97],
          WOp.scalar false [49]] (PWriter.init 2 none)).2
      [98] (by decide) (by decide) (by decide)⟩

/-- Claim C4 counterexample: with indentSize = 0, writing two scalars
at top level still emits a newline byte between them. -/
theorem C4_counterexample :
    (runOps [WOp.scalar false [49], WOp.scalar false [50]]
        (PWriter.init 0 none)).2.out = [49, lineFeed, 50] ∧
    lineFeed ∈
      (runOps [WOp.scalar false [49], WOp.scalar false [50]]
          (PWriter.init 0 none)).2.out := by
  decide

/-- Claim C4 (amended): with indentSize = 0 every operation appends to
the output exactly its payload bytes plus the mandatory punctuation -
the comma between list elements and struct fields, the space between
sexp elements, the colon-space after a field name, the container
delimiters, and additionally the single newline separating consecutive
top-level values, which is emitted unconditionally and is not
suppressed by indentSize = 0. -/
theorem C4_compact_layout (op : WOp) (w : PWriter) (h : w.indentSize = 0) :
    (runOp op w).2.out = w.out ++ specCompactDelta op w := by
  have hsep : sepBytes w = specMandatorySeparator w := by
    unfold sepBytes specMandatorySeparator
    simp [h]
  have hpv : pvBytes w = [] := by
    unfold pvBytes
    simp [h]
  cases op with
  | scalar b p =>
      by_cases hst : w.currentContainer.state = WState.structField
      · have hres : serializeValue b p w =
            (some WError.expectingStructField, w) := by
          simp [serializeValue, hst]
        simp [runOp, hres, specCompactDelta, hst]
      · obtain ⟨_, h2, _⟩ := serializeValue_run w b p hst
        simp [runOp, h2, hsep, hpv, specCompactDelta, hst]
  | wnull p =>
      obtain ⟨_, h2, _⟩ := writeNull_run w p
      simp [runOp, h2, hsep, hpv, specCompactDelta]
  | fieldName tok =>
      by_cases ht : w.currentContainer.containerType = some CType.struct
      · by_cases hs : w.currentContainer.state = WState.structField
        · obtain ⟨_, _, h3⟩ := writeFieldName_success_spec tok w ht hs
          by_cases hcl : w.currentContainer.clean = false
          · simp [runOp, h3, specCompactDelta, ht, hs, hcl, h]
          · simp [runOp, h3, specCompactDelta, ht, hs, hcl, h]
        · have hres : writeFieldName tok w =
              (some WError.expectingStructValue, w) := by
            simp [writeFieldName, ht, hs]
          simp [runOp, hres, specCompactDelta, ht, hs]
      · have hres : writeFieldName tok w =
            (some WError.fieldNameOutsideStruct, w) := by
          simp [writeFieldName, ht]
        simp [runOp, hres, specCompactDelta, ht]
  | stepInto t =>
      obtain ⟨_, _, _, _, h5⟩ := writeContainer_run w t (openingOf t)
      simp [runOp, stepIn, h5, hsep, hpv, specCompactDelta, h]
  | stepOutOf =>
      cases hcr : w.containerContext with
      | nil =>
          have hres : stepOut w = (some WError.notInContainer, w) := by
            simp only [stepOut, hcr]
          simp [runOp, hres, specCompactDelta, hcr]
      | cons frame rest =>
          cases hft : frame.containerType with
          | none =>
              have hres : stepOut w = (some WError.notInContainer,
                  { w with containerContext := rest }) := by
                simp only [stepOut, hcr]
                rw [if_pos (by simp [hft])]
              simp [runOp, hres, specCompactDelta, hcr, hft]
          | some t =>
              by_cases hsv : frame.containerType = some CType.struct ∧
                  frame.state = WState.value
              · have hres : stepOut w = (some WError.expectingStructValue,
                    { w with containerContext := rest }) := by
                  simp only [stepOut, hcr]
                  rw [if_neg (by simp [hft]), if_pos hsv]
                have ht2 : t = CType.struct := by
                  rw [hft] at hsv
                  exact Option.some.inj hsv.1
                simp [runOp, hres, specCompactDelta, hcr, hft, ht2, hsv.2]
              · obtain ⟨_, _, _, _, _, o6⟩ :=
                  stepOut_run w frame rest hcr t hft hsv
                have hns : ¬(t = CType.struct ∧
                    frame.state = WState.value) := by
                  rw [hft] at hsv
                  simpa using hsv
                simp [runOp, o6, specCompactDelta, hcr, hft, hns, h]

/-- Witness for C4: one compact-mode operation after one top-level
scalar. -/
theorem C4_witness :
    (runOps [WOp.scalar false [50]] (PWriter.init 0 none)).2.indentSize =
      0 ∧
    (runOp (WOp.scalar false [49])
        (runOps [WOp.scalar false [50]] (PWriter.init 0 none)).2).2.out =
      (runOps [WOp.scalar false [50]] (PWriter.init 0 none)).2.out ++
        specCompactDelta (WOp.scalar false [49])
          (runOps [WOp.scalar false [50]] (PWriter.init 0 none)).2 :=
  ⟨by decide,
    C4_compact_layout (WOp.scalar false [49])
      (runOps [WOp.scalar false [50]] (PWriter.init 0 none)).2 (by decide)⟩

theorem wft_two {t a : Option CType} {l : List (Option CType)} :
    WFT (t :: a :: l) ↔ t.isSome = true ∧ WFT (a :: l) :=
  Iff.rfl

theorem wft_ne_nil {ts : List (Option CType)} (h : WFT ts) : ts ≠ [] := by
  cases ts with
  | nil => exact False.elim h
  | cons a l => simp

theorem inv_length {w : PWriter} (hInv : Inv w) :
    w.containerContext.length = w.depth + 1 := by
  have hne : w.containerContext ≠ [] := by
    intro h0
    have hwf := hInv.1
    rw [WFStack, h0] at hwf
    exact False.elim hwf
  cases h0 : w.containerContext with
  | nil => exact absurd h0 hne
  | cons a l => simp [PWriter.depth, h0]

theorem inv_transfer {a b : PWriter}
    (hty : typesOf b.containerContext = typesOf a.containerContext)
    (hicv : b.indentCount = a.indentCount)
    (hpd : b.prettify_depth = a.prettify_depth)
    (hInv : Inv a) : Inv b := by
  obtain ⟨hwf, hic⟩ := hInv
  constructor
  · rw [WFStack, hty]
    exact hwf
  · rw [countShallow, hty, hicv, hpd, hic, countShallow]

theorem inv_step {w w1 : PWriter} {op : WOp} (hInv : Inv w)
    (h : runOp op w = (none, w1)) : Inv w1 := by
  obtain ⟨hwf, hic⟩ := hInv
  cases op with
  | scalar b p =>
      by_cases hst : w.currentContainer.state = WState.structField
      · have hres : serializeValue b p w =
            (some WError.expectingStructField, w) := by
          simp [serializeValue, hst]
        rw [runOp, hres] at h
        cases h
      · obtain ⟨_, _, h3, h4, h5, _⟩ := serializeValue_run w b p hst
        have hw1 : (serializeValue b p w).2 = w1 := by rw [runOp] at h; rw [h]
        rw [← hw1]
        exact inv_transfer h3 h4 h5 ⟨hwf, hic⟩
  | wnull p =>
      obtain ⟨_, _, h3, h4, h5, _⟩ := writeNull_run w p
      have hw1 : (writeNull p w).2 = w1 := by rw [runOp] at h; rw [h]
      rw [← hw1]
      exact inv_transfer h3 h4 h5 ⟨hwf, hic⟩
  | fieldName tok =>
      by_cases ht : w.currentContainer.containerType = some CType.struct
      · by_cases hs : w.currentContainer.state = WState.structField
        · obtain ⟨_, h2, _⟩ := writeFieldName_success_spec tok w ht hs
          have hw1 : (writeFieldName tok w).2 = w1 := by
            rw [runOp] at h; rw [h]
          rw [← hw1]
          refine inv_transfer ?_ ?_ ?_ ⟨hwf, hic⟩
          · rw [h2, setState_typesOf]
          · by_cases hcl : w.currentContainer.clean = false <;>
              simp [writeFieldName, ht, hs, hcl,
                writePrettyIndent_indentCount,
                writePrettyNewLine_indentCount]
          · by_cases hcl : w.currentContainer.clean = false <;>
              simp [writeFieldName, ht, hs, hcl, writePrettyIndent_pd,
                writePrettyNewLine_pd]
        · have hres : writeFieldName tok w =
              (some WError.expectingStructValue, w) := by
            simp [writeFieldName, ht, hs]
          rw [runOp, hres] at h
          cases h
      · have hres : writeFieldName tok w =
            (some WError.fieldNameOutsideStruct, w) := by
          simp [writeFieldName, ht]
        rw [runOp, hres] at h
        cases h
  | stepInto t =>
      have hw1 : stepIn t w = w1 := by
        rw [runOp] at h
        injection h
      obtain ⟨c1, c2, c3, _, _⟩ := writeContainer_run w t (openingOf t)
      have hlen : (typesOf w.containerContext).length = w.depth + 1 := by
        rw [typesOf_length]
        exact inv_length ⟨hwf, hic⟩
      rw [← hw1]
      constructor
      · rw [WFStack, show stepIn t w = writeContainer t (openingOf t) w
          from rfl, c1]
        cases hts : typesOf w.containerContext with
        | nil => exact absurd hts (wft_ne_nil hwf)
        | cons a l =>
            rw [wft_two]
            exact ⟨rfl, hts ▸ hwf⟩
      · rw [countShallow, show stepIn t w = writeContainer t (openingOf t) w
          from rfl, c1, c2, c3, countShallowT, hlen, ← ltDepthPred_succ]
        rw [hic, countShallow]
        by_cases hp : ltDepthPred w.depth w.prettify_depth = true <;>
          simp [hp]
  | stepOutOf =>
      rw [runOp] at h
      cases hcr : w.containerContext with
      | nil =>
          have hres : stepOut w = (some WError.notInContainer, w) := by
            simp only [stepOut, hcr]
          rw [hres] at h
          cases h
      | cons frame rest =>
          cases hft : frame.containerType with
          | none =>
              have hres : stepOut w = (some WError.notInContainer,
                  { w with containerContext := rest }) := by
                simp only [stepOut, hcr]
                rw [if_pos (by simp [hft])]
              rw [hres] at h
              cases h
          | some t =>
              by_cases hsv : frame.containerType = some CType.struct ∧
                  frame.state = WState.value
              · have hres : stepOut w = (some WError.expectingStructValue,
                    { w with containerContext := rest }) := by
                  simp only [stepOut, hcr]
                  rw [if_neg (by simp [hft]), if_pos hsv]
                rw [hres] at h
                cases h
              · obtain ⟨_, o2, o3, _, o5, _⟩ :=
                  stepOut_run w frame rest hcr t hft hsv
                have hw1 : (stepOut w).2 = w1 := by rw [h]
                have hwf2 : WFT (frame.containerType :: typesOf rest) := by
                  have := hwf
                  rw [WFStack, hcr, typesOf_cons] at this
                  exact this
                have hrne : rest ≠ [] := by
                  intro hr
                  rw [hr] at hwf2
                  have h0 : frame.containerType = none := hwf2
                  rw [hft] at h0
                  cases h0
                have hlp : 0 < rest.length := List.length_pos.mpr hrne
                have hwfr : WFT (typesOf rest) := by
                  cases hts : typesOf rest with
                  | nil =>
                      have hl0 : rest.length = 0 := by
                        have h9 := congrArg List.length hts
                        simpa [typesOf] using h9
                      exact absurd hl0 (by omega)
                  | cons a l =>
                      rw [hts] at hwf2
                      exact (wft_two.mp hwf2).2
                rw [← hw1]
                constructor
                · rw [WFStack, o2]
                  exact hwfr
                · rw [countShallow, o2, o3, o5]
                  have hics : w.indentCount =
                      ((countShallowT (typesOf rest) w.prettify_depth +
                        if ltDepth rest.length w.prettify_depth = true
                        then 1 else 0 : Nat) : Int) := by
                    rw [hic, countShallow, hcr, typesOf_cons, countShallowT,
                      typesOf_length, hft]
                    simp
                  have hpred : ltDepthPred (rest.length - 1) w.prettify_depth =
                      ltDepth rest.length w.prettify_depth := by
                    rw [ltDepthPred_succ]
                    congr 1
                    omega
                  rw [hics, hpred]
                  by_cases hp : ltDepth rest.length w.prettify_depth = true <;>
                    simp [hp]

theorem inv_runOps {ops : List WOp} {a b : PWriter} (hInv : Inv a)
    (h : runOps ops a = (none, b)) : Inv b := by
  induction ops generalizing a with
  | nil =>
      rw [runOps] at h
      injection h with _ h2
      rw [← h2]
      exact hInv
  | cons op ops ih =>
      rw [runOps] at h
      rcases hop : runOp op a with ⟨e, w1⟩
      rw [hop] at h
      cases e with
      | some e0 => cases h
      | none => exact ih (inv_step hInv hop) h

theorem inv_init (sz : Nat) (pd : Option Nat) : Inv (PWriter.init sz pd) := by
  constructor
  · rw [WFStack]
    rfl
  · rw [countShallow]
    simp [PWriter.init, countShallowT, Context.new]

theorem inv_reachable {w : PWriter} (h : Reachable w) : Inv w := by
  obtain ⟨ops, hops⟩ := h
  exact inv_runOps (inv_init _ _) hops

theorem ltDepth_mono {m n : Nat} (pd : Option Nat) (hmn : m ≤ n)
    (h : ltDepth n pd = true) : ltDepth m pd = true := by
  cases pd with
  | none => rfl
  | some d =>
      simp [ltDepth] at h ⊢
      omega

theorem countShallowT_shallow (ts : List (Option CType)) (pd : Option Nat)
    (hwf : WFT ts) (hlt : ltDepth (ts.length - 1) pd = true) :
    countShallowT ts pd = ts.length - 1 := by
  induction ts with
  | nil => exact False.elim hwf
  | cons t rest ih =>
      cases rest with
      | nil =>
          have h0 : t = none := hwf
          simp [countShallowT, h0]
      | cons a l =>
          obtain ⟨hs, hrest⟩ := wft_two.mp hwf
          have hlt1 : ltDepth (a :: l).length pd = true := by
            simpa using hlt
          have hlt2 : ltDepth ((a :: l).length - 1) pd = true :=
            ltDepth_mono pd (by simp) hlt1
          have hihr := ih hrest hlt2
          rw [countShallowT, hihr, hs]
          rw [if_pos ⟨rfl, hlt1⟩]
          simp

theorem inv_shallow_indent {w : PWriter} (hInv : Inv w)
    (hlt : ltDepth w.depth w.prettify_depth = true) :
    w.indentCount = (w.depth : Int) := by
  obtain ⟨hwf, hic⟩ := hInv
  have hlen : (typesOf w.containerContext).length = w.depth + 1 := by
    rw [typesOf_length]
    exact inv_length ⟨hwf, hic⟩
  have hlt2 : ltDepth ((typesOf w.containerContext).length - 1)
      w.prettify_depth = true := by
    rw [hlen]
    simpa using hlt
  have hcs := countShallowT_shallow (typesOf w.containerContext)
    w.prettify_depth hwf hlt2
  rw [hic, countShallow, hcs, hlen]
  simp

/-- Claim C9: after every successful operation sequence from a fresh
writer, indentCount equals the number of currently open containers
entered at a depth strictly below the prettifyDepth threshold
(containers entered at or beyond it neither increment on entry nor
decrement on exit); it is 0 at construction and 0 whenever no such
container is open. -/
theorem C9_indent_counter_invariant (sz : Nat) (pd : Option Nat)
    (ops : List WOp) (w : PWriter)
    (h : runOps ops (PWriter.init sz pd) = (none, w)) :
    (PWriter.init sz pd).indentCount = 0 ∧
    w.indentCount = (countShallow w.containerContext w.prettify_depth : Int) ∧
    (countShallow w.containerContext w.prettify_depth = 0 →
      w.indentCount = 0) := by
  have hInv := inv_runOps (inv_init sz pd) h
  exact ⟨rfl, hInv.2, fun h0 => by rw [hInv.2, h0]; rfl⟩

/-- Witness for C9 after opening one list below the threshold. -/
theorem C9_witness :
    runOps [WOp.stepInto CType.list] (PWriter.init 2 (some 3)) =
      (none, (runOps [WOp.stepInto CType.list]
        (PWriter.init 2 (some 3))).2) ∧
    ((PWriter.init 2 (some 3)).indentCount = 0 ∧
      (runOps [WOp.stepInto CType.list]
          (PWriter.init 2 (some 3))).2.indentCount =
        (countShallow (runOps [WOp.stepInto CType.list]
            (PWriter.init 2 (some 3))).2.containerContext
          (runOps [WOp.stepInto CType.list]
            (PWriter.init 2 (some 3))).2.prettify_depth : Int) ∧
      (countShallow (runOps [WOp.stepInto CType.list]
            (PWriter.init 2 (some 3))).2.containerContext
          (runOps [WOp.stepInto CType.list]
            (PWriter.init 2 (some 3))).2.prettify_depth = 0 →
        (runOps [WOp.stepInto CType.list]
          (PWriter.init 2 (some 3))).2.indentCount = 0)) :=
  ⟨by decide,
    C9_indent_counter_invariant 2 (some 3) [WOp.stepInto CType.list] _
      (by decide)⟩

/-- Claim C5: for a writer with finite positive threshold d and
positive indent size, on every reachable state, no newline or
indentation byte is emitted for elements at depth at or beyond d, and
below the threshold value indentation is exactly depth times
indentSize spaces. -/
theorem C5_threshold_degradation (w : PWriter) (d : Nat)
    (hpd : w.prettify_depth = some d) (hd0 : 0 < d)
    (hsz : 0 < w.indentSize) (hre : Reachable w) : C5Conclusion w d := by
  have hnlt : d ≤ w.depth → ltDepth w.depth w.prettify_depth = false := by
    intro hge
    rw [hpd]
    simp [ltDepth]
    omega
  have hnp : d ≤ w.depth →
      ltDepthPred w.depth w.prettify_depth = false := by
    intro hge
    rw [hpd]
    simp [ltDepthPred]
    omega
  have hsepeq : d ≤ w.depth →
      sepBytes w = specMandatorySeparator w := by
    intro hge
    have hn := hnlt hge
    unfold sepBytes specMandatorySeparator
    simp [hn]
  have hpv0 : d ≤ w.depth → pvBytes w = [] := by
    intro hge
    have hn := hnlt hge
    unfold pvBytes
    simp [hn]
  refine ⟨?_, ?_, ?_, ?_, ?_, ?_, ?_, ?_⟩
  · intro i hge
    have hn := hnlt hge
    constructor
    · rw [writePrettyNewLine_out]
      simp [hn]
    · rw [writePrettyIndent_out]
      simp [hn]
  · intro hge
    refine ⟨hsepeq hge, ?_⟩
    have h0 : w.depth ≠ 0 := by omega
    unfold specMandatorySeparator
    by_cases hc : w.currentContainer.clean
    · simp [hc]
    · cases htc : w.currentContainer.containerType with
      | none => simp [hc, h0, htc]
      | some t =>
          cases t <;> simp [hc, h0, htc, lineFeed, comma, space]
  · intro b p hge hst
    obtain ⟨_, h2, _⟩ := serializeValue_run w b p hst
    rw [h2, hsepeq hge, hpv0 hge]
    simp
  · intro p hge
    obtain ⟨_, h2, _⟩ := writeNull_run w p
    rw [h2, hsepeq hge, hpv0 hge]
    simp
  · intro t hge
    obtain ⟨_, _, _, _, h5⟩ := writeContainer_run w t (openingOf t)
    rw [stepIn, h5, hsepeq hge, hpv0 hge]
    simp [hnp hge]
  · intro tok hge ht hs
    obtain ⟨_, _, h3⟩ := writeFieldName_success_spec tok w ht hs
    rw [h3]
    have hn := hnlt hge
    by_cases hcl : w.currentContainer.clean = false <;> simp [hcl, hn]
  · intro frame rest t hge hcr hft hnsv
    obtain ⟨_, _, _, _, _, o6⟩ := stepOut_run w frame rest hcr t hft hnsv
    have hdr : w.depth = rest.length := by
      simp [PWriter.depth, hcr]
    have hnp2 : ltDepthPred (rest.length - 1) w.prettify_depth = false := by
      rw [hpd]
      simp [ltDepthPred]
      omega
    rw [o6]
    simp [hnp2]
  · intro hdp hlt2
    have hlt3 : ltDepth w.depth w.prettify_depth = true := by
      rw [hpd]
      simp [ltDepth]
      omega
    have hicd := inv_shallow_indent (inv_reachable hre) hlt3
    rw [writePrettyIndent_out]
    have hcast : (w.indentCount + 0) * (w.indentSize : Int) =
        ((w.depth * w.indentSize : Nat) : Int) := by
      rw [hicd]
      push_cast
      ring
    rw [hcast, if_pos ⟨hsz, hlt3⟩, Int.toNat_natCast]

/-- Witness for C5 on a reachable writer sitting exactly at the
threshold depth. -/
theorem C5_witness :
    (runOps [WOp.stepInto CType.list]
        (PWriter.init 1 (some 1))).2.prettify_depth = some 1 ∧
    0 < 1 ∧
    0 < (runOps [WOp.stepInto CType.list]
        (PWriter.init 1 (some 1))).2.indentSize ∧
    Reachable (runOps [WOp.stepInto CType.list] (PWriter.init 1 (some 1))).2 ∧
    C5Conclusion
      (runOps [WOp.stepInto CType.list] (PWriter.init 1 (some 1))).2 1 :=
  ⟨by decide, by decide, by decide,
    ⟨[WOp.stepInto CType.list], by decide⟩,
    C5_threshold_degradation
      (runOps [WOp.stepInto CType.list] (PWriter.init 1 (some 1))).2 1
      (by decide) (by decide) (by decide)
      ⟨[WOp.stepInto CType.list], by decide⟩⟩

end PrettyIon
